import Mathlib

/-!
Shallow embedding of `scripts/print_memory_stream.py`.

The script fetches a "memory stream" field from a Galactic Console system
payload and prints it decoded as text.  Python values that can flow through
the pipeline are modelled by the inductive type `PyVal`; Python callables are
modelled by abstract tags resolved through an ambient call table, byte
strings by lists of naturals, and text codecs (looked up by name for the
`--encoding` flag) by pairs of optional encode/decode functions.  The
standard-library pieces the script relies on (`base64.b64decode` with
`validate=True`, `json.dumps` with `ensure_ascii=False`, UTF-8 decoding with
strict or replacement error handling) are modelled from their documented
behaviour, since they are not part of this repository.
-/

/-- Index of a character in the standard base64 alphabet, if any. -/
def b64Index (c : Char) : Option Nat :=
  if 'A' ≤ c ∧ c ≤ 'Z' then some (c.toNat - 65)
  else if 'a' ≤ c ∧ c ≤ 'z' then some (c.toNat - 71)
  else if '0' ≤ c ∧ c ≤ '9' then some (c.toNat + 4)
  else if c = '+' then some 62
  else if c = '/' then some 63
  else Option.none

/-- Turn a list of 6-bit base64 digit values into bytes: complete groups of
four digits give three bytes, a trailing group of two or three digits gives
one or two bytes (the unused low bits of the last digit are dropped, as in
CPython's non-strict `binascii.a2b_base64`). -/
def b64DecodeGroups : List Nat → List Nat
  | a :: b :: c :: d :: rest =>
      (a * 4 + b / 16) :: ((b % 16) * 16 + c / 4) :: ((c % 4) * 64 + d) ::
        b64DecodeGroups rest
  | [a, b] => [a * 4 + b / 16]
  | [a, b, c] => [a * 4 + b / 16, (b % 16) * 16 + c / 4]
  | _ => []

/-- `binascii.a2b_base64` restricted to inputs that already passed the
`validate=True` shape check: `w` is the list of data-digit values and `pads`
the number of trailing `=` characters (at most 2).  A remainder of one data
digit is always an error; a remainder of two digits needs two pads; a
remainder of three digits needs at least one pad; with no remainder any
number of trailing pads is tolerated. -/
def a2bBase64 (w : List Nat) (pads : Nat) : Option (List Nat) :=
  match w.length % 4, pads with
  | 0, _ => some (b64DecodeGroups w)
  | 2, 2 => some (b64DecodeGroups w)
  | 3, 1 => some (b64DecodeGroups w)
  | 3, 2 => some (b64DecodeGroups w)
  | _, _ => Option.none

/-- `base64.b64decode(s, validate=True)`: the input must consist of alphabet
characters followed by at most two `=` characters (otherwise `b64decode`
raises `binascii.Error`, and a non-ASCII character makes the implicit ASCII
encoding raise `ValueError`; both are caught at the single call site), and
the digit/padding counts must be coherent. -/
def b64decodeStrict (s : String) : Option (List Nat) :=
  let cs := s.data
  let w := cs.takeWhile fun c => (b64Index c).isSome
  let rest := cs.dropWhile fun c => (b64Index c).isSome
  if rest.all (fun c => c == '=') ∧ rest.length ≤ 2 then
    a2bBase64 (w.filterMap b64Index) rest.length
  else Option.none

/-- The Unicode replacement character U+FFFD. -/
def replChar : Char := Char.ofNat 0xFFFD

/-- Is `b` a UTF-8 continuation byte (`0x80..0xBF`)? -/
def isCont (b : Nat) : Bool := decide (0x80 ≤ b ∧ b ≤ 0xBF)

/-- Total length (in bytes) of a UTF-8 sequence headed by `b`; `0` when `b`
is not a valid leading byte. -/
def seqLen (b : Nat) : Nat :=
  if 0xC2 ≤ b ∧ b ≤ 0xDF then 2
  else if 0xE0 ≤ b ∧ b ≤ 0xEF then 3
  else if 0xF0 ≤ b ∧ b ≤ 0xF4 then 4
  else 0

/-- Lower bound for the first continuation byte after leading byte `b`
(restricting overlong encodings). -/
def contLo (b : Nat) : Nat := if b = 0xE0 then 0xA0 else if b = 0xF0 then 0x90 else 0x80

/-- Upper bound for the first continuation byte after leading byte `b`
(restricting surrogates and values above U+10FFFF). -/
def contHi (b : Nat) : Nat := if b = 0xED then 0x9F else if b = 0xF4 then 0x8F else 0xBF

/-- How many of the first `need` bytes of `bs` are valid continuation bytes
for a sequence headed by `b`; counting stops at the first mismatch.  Used to
find the maximal subpart of an ill-formed sequence. -/
def matchedConts (b : Nat) (bs : List Nat) (need : Nat) : Nat :=
  match bs with
  | [] => 0
  | c1 :: rest =>
    if ¬ (contLo b ≤ c1 ∧ c1 ≤ contHi b) then 0
    else if need ≤ 1 then 1
    else
      match rest with
      | [] => 1
      | c2 :: rest2 =>
        if ¬ (isCont c2 = true) then 1
        else if need ≤ 2 then 2
        else
          match rest2 with
          | [] => 2
          | c3 :: _ => if isCont c3 then 3 else 2

/-- Scalar value of a complete UTF-8 sequence: leading byte plus its
continuation bytes. -/
def utf8CharOf (b : Nat) (conts : List Nat) : Char :=
  match conts with
  | [c1] => Char.ofNat ((b % 32) * 64 + c1 % 64)
  | [c1, c2] => Char.ofNat ((b % 16) * 4096 + (c1 % 64) * 64 + c2 % 64)
  | [c1, c2, c3] =>
      Char.ofNat ((b % 8) * 262144 + (c1 % 64) * 4096 + (c2 % 64) * 64 + c3 % 64)
  | _ => replChar

/-- Fueled UTF-8 decoder following CPython's decoder: a well-formed sequence
yields its scalar value; an ill-formed maximal subpart (invalid leading byte,
or a truncated/broken sequence together with the continuation bytes matched
so far) yields one U+FFFD and sets the error flag.  The fuel is seeded with
the length of the input, and each step consumes at least one byte, so the
fuel never runs out. -/
def utf8DecodeFuel : Nat → List Nat → List Char × Bool
  | 0, rest => ([], rest.isEmpty)
  | _ + 1, [] => ([], true)
  | f + 1, b :: bs =>
    if b ≤ 0x7F then
      let r := utf8DecodeFuel f bs
      (Char.ofNat b :: r.1, r.2)
    else
      let n := seqLen b
      if n = 0 then
        let r := utf8DecodeFuel f bs
        (replChar :: r.1, false)
      else
        let k := matchedConts b bs (n - 1)
        if k = n - 1 then
          let r := utf8DecodeFuel f (bs.drop (n - 1))
          (utf8CharOf b (bs.take (n - 1)) :: r.1, r.2)
        else
          let r := utf8DecodeFuel f (bs.drop k)
          (replChar :: r.1, false)

/-- `bytes.decode("utf-8", errors="replace")`: total, each ill-formed
maximal subpart becomes U+FFFD. -/
def utf8DecodeReplace (bs : List Nat) : String :=
  ⟨(utf8DecodeFuel bs.length bs).1⟩

/-- `bytes.decode("utf-8")` with strict error handling: fails if any
replacement would be needed. -/
def utf8DecodeStrict (bs : List Nat) : Option String :=
  let r := utf8DecodeFuel bs.length bs
  if r.2 then some ⟨r.1⟩ else Option.none

/-- UTF-8 encoding of one scalar value. -/
def utf8EncodeChar (c : Char) : List Nat :=
  let n := c.toNat
  if n < 0x80 then [n]
  else if n < 0x800 then [0xC0 + n / 64, 0x80 + n % 64]
  else if n < 0x10000 then [0xE0 + n / 4096, 0x80 + (n / 64) % 64, 0x80 + n % 64]
  else [0xF0 + n / 262144, 0x80 + (n / 4096) % 64, 0x80 + (n / 64) % 64, 0x80 + n % 64]

/-- `str.encode("utf-8")`; total, since Lean characters are Unicode scalar
values. -/
def utf8Encode (s : String) : List Nat :=
  (s.data.map utf8EncodeChar).flatten

/-- A text codec as the script uses one: `encode` models
`str.encode(name, errors="strict")` and `decode` models `bytes.decode(name)`,
each returning `none` where Python raises `UnicodeEncodeError` resp.
`UnicodeDecodeError`. -/
structure Encoding : Type where
  encode : String → Option (List Nat)
  decode : List Nat → Option String

/-- The UTF-8 codec. -/
def utf8Encoding : Encoding :=
  ⟨fun s => some (utf8Encode s), utf8DecodeStrict⟩

/-- Lowercase hexadecimal digit. -/
def hexDigit (n : Nat) : Char :=
  if n < 10 then Char.ofNat (48 + n) else Char.ofNat (87 + n)

/-- JSON escaping of one character as `json.dumps` with `ensure_ascii=False`
performs it: quote, backslash and the named control characters get two-char
escapes, other control characters a `\u00xx` escape, everything else is kept
verbatim. -/
def jsonEscapeChar (c : Char) : List Char :=
  if c = '"' then ['\\', '"']
  else if c = '\\' then ['\\', '\\']
  else if c = Char.ofNat 8 then ['\\', 'b']
  else if c = Char.ofNat 9 then ['\\', 't']
  else if c = Char.ofNat 10 then ['\\', 'n']
  else if c = Char.ofNat 12 then ['\\', 'f']
  else if c = Char.ofNat 13 then ['\\', 'r']
  else if c.toNat < 0x20 then
    ['\\', 'u', '0', '0', hexDigit (c.toNat / 16), hexDigit (c.toNat % 16)]
  else [c]

/-- JSON string literal for `s`. -/
def jsonQuote (s : String) : String :=
  ⟨'"' :: (s.data.map jsonEscapeChar).flatten ++ ['"']⟩

/-- Model of the Python values that can flow through the script: `None`,
booleans, integers, text, `bytes`/`bytearray`, lists, dictionaries (possibly
dict-subclass instances carrying instance attributes, hence the `attrs`
field), plain attribute-bearing objects, and callables.  A callable is an
abstract tag; an ambient call table maps a tag applied to positional and
keyword arguments to the returned value (the modelled calls do not raise). -/
inductive PyVal : Type where
  | none
  | bool (b : Bool)
  | int (n : Int)
  | str (s : String)
  | bytes (bs : List Nat)
  | bytearray (bs : List Nat)
  | pylist (xs : List PyVal)
  | dict (attrs : List (String × PyVal)) (entries : List (String × PyVal))
  | obj (attrs : List (String × PyVal))
  | callable (tag : Nat)

/-- First value bound to `name` in an association list. -/
def lookupStr : List (String × PyVal) → String → Option PyVal
  | [], _ => Option.none
  | (k, v) :: rest, name => if k = name then some v else lookupStr rest name

/-- Bind `name` to `v`, replacing the first existing binding or appending. -/
def setEntry : List (String × PyVal) → String → PyVal → List (String × PyVal)
  | [], name, v => [(name, v)]
  | (k, w) :: rest, name, v =>
      if k = name then (k, v) :: rest else (k, w) :: setEntry rest name v

/-- `getattr(p, name)` for the attributes the model tracks; `none` plays the
role of an `AttributeError` (so `hasattr` is `isSome` and a `getattr` with
default is `getD`).  Only objects and dict-subclass instances carry
attributes in the model. -/
def PyVal.getattr? : PyVal → String → Option PyVal
  | .obj attrs, name => lookupStr attrs name
  | .dict attrs _, name => lookupStr attrs name
  | _, _ => Option.none

/-- `setattr(p, name, v)` as a functional update; values that do not carry
attributes are returned unchanged. -/
def PyVal.setattrVal : PyVal → String → PyVal → PyVal
  | .obj attrs, name, v => .obj (setEntry attrs name v)
  | .dict attrs es, name, v => .dict (setEntry attrs name v) es
  | p, _, _ => p

/-- `p is None`. -/
def PyVal.isNone : PyVal → Bool
  | .none => true
  | _ => false

/-- `callable(p)`. -/
def PyVal.isCallable : PyVal → Bool
  | .callable _ => true
  | _ => false

/-- Truthiness of an optional string option (`if base_url:` in Python is
false for `None` and for the empty string). -/
def truthyOptStr : Option String → Bool
  | some s => !(s == "")
  | Option.none => false

/-- Errors that abort the run: `SystemExit` (the interpreter prints the
message to stderr and exits with the given code; `raise SystemExit("msg")`
exits with code 1) or an uncaught exception (the interpreter prints a
traceback ending in `name: msg` and exits with code 1). -/
inductive PyErr : Type where
  | sysExit (code : Nat) (msg : String)
  | uncaught (excName : String) (msg : String)

/-- Call table resolving callable tags: positional arguments, then keyword
arguments, to the returned value. -/
def CallTable : Type := Nat → List PyVal → List (String × PyVal) → PyVal

/-- Apply a value: calling a non-callable raises `TypeError`. -/
def callVal (call : CallTable) (f : PyVal) (args : List PyVal)
    (kwargs : List (String × PyVal)) : Except PyErr PyVal :=
  match f with
  | .callable tag => .ok (call tag args kwargs)
  | _ => .error (.uncaught "TypeError" "object is not callable")

/-- `_import_client`: the imported module is supplied by the environment
(`none` models a missing `galactic_console_client` package, in which case the
script raises `SystemExit` with its installation hint). -/
def importClient (galacticModule : Option PyVal) : Except PyErr PyVal :=
  match galacticModule with
  | Option.none =>
      .error (.sysExit 1
        ("The 'galactic_console_client' package is required. " ++
          "Install it before running this script."))
  | some m => .ok m

/-- The keyword arguments `_create_client` builds for
`GalacticConsoleClient(**kwargs)`: insertion order is `base_url` then
`api_key`, each included only when truthy. -/
def clientKwargs (baseUrl apiKey : Option String) : List (String × PyVal) :=
  (if truthyOptStr baseUrl then [("base_url", PyVal.str (baseUrl.getD ""))] else []) ++
    (if truthyOptStr apiKey then [("api_key", PyVal.str (apiKey.getD ""))] else [])

/-- `getattr(p, n, None)` for each name in turn, returning the first value
that `is not None`. -/
def firstNonNoneAttr (p : PyVal) : List String → Option PyVal
  | [] => Option.none
  | n :: rest =>
    match p.getattr? n with
    | some v => if v.isNone then firstNonNoneAttr p rest else some v
    | Option.none => firstNonNoneAttr p rest

/-- `d[k] = v`: item assignment, a `TypeError` on non-dictionaries. -/
def dictSetItem (d : PyVal) (k : String) (v : PyVal) : Except PyErr PyVal :=
  match d with
  | .dict attrs es => .ok (.dict attrs (setEntry es k v))
  | _ => .error (.uncaught "TypeError" "object does not support item assignment")

/-- `_create_client`: pattern 1 when the module exposes
`GalacticConsoleClient`; otherwise pattern 2 when it exposes both
`Configuration` and `ApiClient` (instantiate a configuration, set its host
and api_key when the options are truthy, wrap it in an `ApiClient`, and
prefer a dedicated `SystemApi`/`SystemsApi`/`DefaultApi` class when one is
present); otherwise fall back to the module itself. -/
def createClient (call : CallTable) (clientModule : PyVal)
    (baseUrl apiKey : Option String) : Except PyErr PyVal :=
  if (clientModule.getattr? "GalacticConsoleClient").isSome then
    callVal call ((clientModule.getattr? "GalacticConsoleClient").getD .none)
      [] (clientKwargs baseUrl apiKey)
  else if (clientModule.getattr? "Configuration").isSome ∧
      (clientModule.getattr? "ApiClient").isSome then do
    let configuration ←
      callVal call ((clientModule.getattr? "Configuration").getD .none) [] []
    let configuration :=
      match baseUrl with
      | some u => if u ≠ "" then configuration.setattrVal "host" (.str u) else configuration
      | Option.none => configuration
    let configuration ←
      match apiKey with
      | some k =>
        if k ≠ "" then do
          let cur := (configuration.getattr? "api_key").getD (.dict [] [])
          let withAttr := configuration.setattrVal "api_key" cur
          let cur2 ← dictSetItem cur "api_key" (.str k)
          pure (withAttr.setattrVal "api_key" cur2)
        else pure configuration
      | Option.none => pure configuration
    let apiClient ←
      callVal call ((clientModule.getattr? "ApiClient").getD .none) [configuration] []
    match firstNonNoneAttr clientModule ["SystemApi", "SystemsApi", "DefaultApi"] with
    | some api => callVal call api [apiClient] []
    | Option.none => .ok apiClient
  else
    .ok clientModule

/-- Names `_call_get_system` guesses for the operation. -/
def gsNames : List String := ["getSystem", "get_system"]

/-- The candidate objects `_call_get_system` searches: the client itself,
then each of its `system`/`systems`/`console` attributes that `is not
None`. -/
def gsCandidates (client : PyVal) : List PyVal :=
  client :: (["system", "systems", "console"].filterMap fun a =>
    let nested := (client.getattr? a).getD .none
    if nested.isNone then Option.none else some nested)

/-- First callable bound to one of `names` on `o`
(`getattr(o, name, None)` then `callable(method)`). -/
def firstCallableMethod (o : PyVal) : List String → Option PyVal
  | [] => Option.none
  | n :: rest =>
    let m := (o.getattr? n).getD .none
    if m.isCallable then some m else firstCallableMethod o rest

/-- The method `_call_get_system` locates, if any: candidates in order, and
for each candidate the two names in order. -/
def findGetSystem : List PyVal → Option PyVal
  | [] => Option.none
  | o :: rest =>
    match firstCallableMethod o gsNames with
    | some m => some m
    | Option.none => findGetSystem rest

/-- `_call_get_system`: call the first located method with no arguments, or
raise `SystemExit`. -/
def callGetSystem (call : CallTable) (client : PyVal) : Except PyErr PyVal :=
  match findGetSystem (gsCandidates client) with
  | some m => callVal call m [] []
  | Option.none =>
      .error (.sysExit 1 "Unable to locate a 'getSystem' call on the client.")

/-- Attribute names `_extract_memory_stream` tries, in order. -/
def memAttrNames : List String := ["memory_stream", "memoryStream", "memory"]

/-- Dictionary keys `_extract_memory_stream` tries, in order. -/
def memKeyNames : List String := ["memory_stream", "memoryStream", "memory", "memory_streams"]

/-- First attribute of `p` present among `names`
(`hasattr` then `getattr`). -/
def firstPresentAttr (p : PyVal) : List String → Option PyVal
  | [] => Option.none
  | n :: rest =>
    match p.getattr? n with
    | some v => some v
    | Option.none => firstPresentAttr p rest

/-- First key of `entries` present among `names`. -/
def firstPresentKey (entries : List (String × PyVal)) : List String → Option PyVal
  | [] => Option.none
  | k :: rest =>
    match lookupStr entries k with
    | some v => some v
    | Option.none => firstPresentKey entries rest

/-- `_extract_memory_stream`: a `None` payload is an error; attribute access
is tried first, then (for dictionaries) key lookup, then `SystemExit`. -/
def extractMemoryStream (payload : PyVal) : Except PyErr PyVal :=
  if payload.isNone then
    .error (.sysExit 1 "The getSystem call returned no data.")
  else
    match firstPresentAttr payload memAttrNames with
    | some v => .ok v
    | Option.none =>
      match payload with
      | .dict _ entries =>
        match firstPresentKey entries memKeyNames with
        | some v => .ok v
        | Option.none =>
            .error (.sysExit 1 "The system payload does not contain a memory stream.")
      | _ => .error (.sysExit 1 "The system payload does not contain a memory stream.")

mutual

/-- `json.dumps(v, ensure_ascii=False)` (default separators, so `", "`
between items and `": "` after keys): `None`, booleans, integers, strings,
lists and dictionaries serialize; bytes, bytearrays, plain objects and
callables raise `TypeError`, modelled as `none`. -/
def jsonDumps : PyVal → Option String
  | PyVal.none => some "null"
  | .bool true => some "true"
  | .bool false => some "false"
  | .int n => some (toString n)
  | .str s => some (jsonQuote s)
  | .pylist xs =>
    (jsonDumpsList xs).map
      (fun parts => "[" ++ String.intercalate ", " parts ++ "]")
  | .dict _ entries =>
    (jsonDumpsEntries entries).map
      (fun parts => "\x7b" ++ String.intercalate ", " parts ++ "\x7d")
  | .bytes _ => Option.none
  | .bytearray _ => Option.none
  | .obj _ => Option.none
  | .callable _ => Option.none

/-- Serialize the elements of a JSON array, `Option`-strictly. -/
def jsonDumpsList : List PyVal → Option (List String)
  | [] => some []
  | x :: xs => do
    let s ← jsonDumps x
    let r ← jsonDumpsList xs
    pure (s :: r)

/-- Serialize the items of a JSON object, `Option`-strictly. -/
def jsonDumpsEntries : List (String × PyVal) → Option (List String)
  | [] => some []
  | (k, v) :: rest => do
    let s ← jsonDumps v
    let r ← jsonDumpsEntries rest
    pure ((jsonQuote k ++ ": " ++ s) :: r)

end

/-- The raw bytes `_decode_memory_stream` builds before the final text
decode: bytes and bytearrays are taken as-is; a string is base64-decoded when
it validates, otherwise encoded with the user-supplied codec (an encoding
failure there is an uncaught `UnicodeEncodeError`); any other value is
JSON-serialized (`TypeError` when not serializable) and then encoded. -/
def rawBytesOf (memoryStream : PyVal) (enc : Encoding) : Except PyErr (List Nat) :=
  match memoryStream with
  | .bytes bs => .ok bs
  | .bytearray bs => .ok bs
  | .str s =>
    match b64decodeStrict s with
    | some bs => .ok bs
    | Option.none =>
      match enc.encode s with
      | some bs => .ok bs
      | Option.none => .error (.uncaught "UnicodeEncodeError" "cannot encode memory stream")
  | other =>
    match jsonDumps other with
    | some j =>
      match enc.encode j with
      | some bs => .ok bs
      | Option.none => .error (.uncaught "UnicodeEncodeError" "cannot encode memory stream")
    | Option.none =>
        .error (.uncaught "TypeError" "Object is not JSON serializable")

/-- `_decode_memory_stream`: decode the raw bytes with the user-supplied
codec, falling back to UTF-8 with replacement characters when that decode
raises `UnicodeDecodeError`. -/
def decodeMemoryStream (memoryStream : PyVal) (enc : Encoding) : Except PyErr String :=
  match rawBytesOf memoryStream enc with
  | .error e => .error e
  | .ok raw =>
    match enc.decode raw with
    | some s => .ok s
    | Option.none => .ok (utf8DecodeReplace raw)

/-- The namespace `parse_args` returns: `--base-url` and `--api-key` default
to `None`, `--encoding` defaults to `"utf-8"`. -/
structure Args : Type where
  base_url : Option String
  api_key : Option String
  encoding : String

/-- First line of the argparse usage text (the auto-generated `-h` flag
included). -/
def usageMsg : String :=
  "usage: print_memory_stream.py [-h] [--base-url BASE_URL] [--api-key API_KEY] [--encoding ENCODING]"

/-- Stand-in for the auto-generated help text: the real help starts with
this usage line and continues with the option descriptions; no claim here
depends on its wording. -/
def helpMsg : String := usageMsg

/-- The argparse error for an option that did not get its value. -/
def missingValueErr (optName : String) : Except PyErr Args :=
  .error (.sysExit 2 (usageMsg ++ "\nerror: argument " ++ optName ++ ": expected one argument"))

/-- The argparse error for an argument the parser cannot place. -/
def unrecognizedErr (t : String) : Except PyErr Args :=
  .error (.sysExit 2 (usageMsg ++ "\nerror: unrecognized arguments: " ++ t))

/-- Does the character list `p` head the character list `c`? -/
def strHeadMatches : List Char → List Char → Bool
  | [], _ => true
  | _ :: _, [] => false
  | p :: ps, c :: cs => p == c && strHeadMatches ps cs

/-- `s.startswith(p)` over the underlying character lists. -/
def strStartsWith (s p : String) : Bool := strHeadMatches p.data s.data

/-- `s[n:]`: drop the first `n` characters. -/
def strDrop (s : String) (n : Nat) : String := ⟨s.data.drop n⟩

/-- The options of the argparse parser built by `parse_args`: the
auto-generated help action and the three declared value-storing options. -/
inductive OptId : Type where
  | helpOpt
  | baseUrlOpt
  | apiKeyOpt
  | encodingOpt
deriving DecidableEq

/-- Long option string of each option. -/
def optStr : OptId → String
  | .helpOpt => "--help"
  | .baseUrlOpt => "--base-url"
  | .apiKeyOpt => "--api-key"
  | .encodingOpt => "--encoding"

/-- Store an option's value into the `argparse.Namespace` slot it is
declared with (`dest` base_url / api_key / encoding; help stores
nothing). -/
def optSet : OptId → Args → String → Args
  | .helpOpt, a, _ => a
  | .baseUrlOpt, a, v => ⟨some v, a.api_key, a.encoding⟩
  | .apiKeyOpt, a, v => ⟨a.base_url, some v, a.encoding⟩
  | .encodingOpt, a, v => ⟨a.base_url, a.api_key, v⟩

/-- All options, for abbreviation matching. -/
def allOpts : List OptId := [.helpOpt, .baseUrlOpt, .apiKeyOpt, .encodingOpt]

/-- The long options a `--`-token's name part matches: an exact match wins
outright; otherwise, with argparse's default `allow_abbrev=True`, every
option the name part properly abbreviates. -/
def optMatches (base : String) : List OptId :=
  match allOpts.filter (fun o => optStr o == base) with
  | [] => allOpts.filter fun o => strStartsWith (optStr o) base
  | es => es

/-- How the argparse parser treats one token: an accepted help spelling; a
value-taking option whose value is the following token; an option with an
inline `=` value; `--help` given an explicit `=` value (rejected); the bare
`--` separator; an ambiguous abbreviation; or anything else (an unknown
option string, or a stray positional this parser does not declare). -/
inductive TokKind : Type where
  | helpTok
  | optValNext (o : OptId)
  | optValInline (o : OptId) (val : String)
  | helpExplicitArg (val : String)
  | sepTok
  | ambiguousOptTok
  | unknownTok

/-- Classify a `--`-token: split the name part at the first `=`, then match
it exactly or as an unambiguous abbreviation against the long options. -/
def classifyLongTok (t : String) : TokKind :=
  let base : String := ⟨t.data.takeWhile fun c => !(c == '=')⟩
  let val? : Option String :=
    match t.data.dropWhile fun c => !(c == '=') with
    | '=' :: vs => some ⟨vs⟩
    | _ => Option.none
  match optMatches base with
  | [] => .unknownTok
  | [o] =>
    (match val? with
     | Option.none => if o = .helpOpt then .helpTok else .optValNext o
     | some v => if o = .helpOpt then .helpExplicitArg v else .optValInline o v)
  | _ :: _ :: _ => .ambiguousOptTok

/-- Classify one command-line token: exact `-h`, the bare `--` separator,
long-option matching (exact or abbreviated) for `--`-tokens, `-h` with
characters glued on (argparse reads them as an explicit argument to the
zero-argument help action and rejects them), and everything else. -/
def classifyTok (t : String) : TokKind :=
  if t = "-h" then .helpTok
  else if t = "--" then .sepTok
  else if strStartsWith t "--" then classifyLongTok t
  else if strStartsWith t "-h" then .helpExplicitArg (strDrop t 2)
  else .unknownTok

/-- `0-9`. -/
def isDigitChar (c : Char) : Bool := decide ('0' ≤ c ∧ c ≤ '9')

/-- argparse's negative-number matcher `-\d+` or `-\d*.\d+` (this parser
declares no numeric-looking option strings, so such tokens count as
values). -/
def isNegNumTok (t : String) : Bool :=
  match t.data with
  | '-' :: rest =>
    let ds := rest.takeWhile isDigitChar
    (match rest.dropWhile isDigitChar with
     | [] => !ds.isEmpty
     | '.' :: frac => !frac.isEmpty && frac.all isDigitChar
     | _ => false)
  | _ => false

/-- Does a token look like an option string rather than an option value?
argparse consumes the following token as an option's value unless it starts
with `-` and is none of: the bare `-`, a negative number, a string
containing a space. -/
def looksLikeOptTok (t : String) : Bool :=
  strStartsWith t "-" && !(t == "-") && !isNegNumTok t &&
    !(t.data.any fun c => c == ' ')

/-- Argument-scanning loop of the argparse parser built by `parse_args`:
the auto-generated `-h`/`--help` prints help and exits 0; each declared
option stores a single value, given as the following token or inline after
`=`, and is also recognized under argparse's default unambiguous prefix
abbreviation (`allow_abbrev=True`); an option missing its value, a help
spelling with an explicit argument, an ambiguous abbreviation, an unknown
option and a stray positional are argparse errors exiting with code 2 (the
real parser reports stray positionals collectively at the end of the scan;
the model reports the first immediately — every such run still errors
with exit code 2); a bare `--` makes all following tokens positionals,
which this parser does not accept. -/
def parseLoop : List String → Args → Except PyErr Args
  | [], acc => .ok acc
  | t :: rest, acc =>
    match classifyTok t with
    | .helpTok => .error (.sysExit 0 helpMsg)
    | .optValNext o =>
      (match rest with
       | v :: rest2 =>
         if looksLikeOptTok v then missingValueErr (optStr o)
         else parseLoop rest2 (optSet o acc v)
       | [] => missingValueErr (optStr o))
    | .optValInline o val => parseLoop rest (optSet o acc val)
    | .helpExplicitArg val =>
        .error (.sysExit 2 (usageMsg ++
          "\nerror: argument -h/--help: ignored explicit argument " ++ val))
    | .sepTok =>
      (match rest with
       | [] => .ok acc
       | t2 :: _ => unrecognizedErr t2)
    | .ambiguousOptTok =>
        .error (.sysExit 2 (usageMsg ++ "\nerror: ambiguous option: " ++ t))
    | .unknownTok => unrecognizedErr t

/-- `parse_args(argv)`. -/
def parseArgs (argv : List String) : Except PyErr Args :=
  parseLoop argv ⟨Option.none, Option.none, "utf-8"⟩

/-- The environment a run depends on: the `galactic_console_client` module
if importable, the call table resolving modelled callables, and the codec
registry the `--encoding` name is looked up in (`codecs "utf-8"` is assumed
to be the real UTF-8 codec in concrete environments). -/
structure Env : Type where
  galacticModule : Option PyVal
  call : CallTable
  codecs : String → Encoding

/-- The six pipeline stages of `main`, in source order. -/
inductive StepEv : Type where
  | importStep
  | createStep
  | callStep
  | extractStep
  | decodeStep
  | printStep

/-- The order in which `main`'s body runs its stages. -/
def pipelineOrder : List StepEv :=
  [.importStep, .createStep, .callStep, .extractStep, .decodeStep, .printStep]

/-- `main(argv)` instrumented with the list of pipeline stages that were
entered: parse the arguments, import the client module, create the client,
call `getSystem`, extract the memory stream, decode it, print it and return
0.  The first component is the outcome (printed lines and return value, or
the aborting error), the second the trace of entered stages. -/
def mainTraced (env : Env) (argv : List String) :
    Except PyErr (List String × Nat) × List StepEv :=
  match parseArgs argv with
  | .error e => (.error e, [])
  | .ok args =>
    match importClient env.galacticModule with
    | .error e => (.error e, [.importStep])
    | .ok clientModule =>
      match createClient env.call clientModule args.base_url args.api_key with
      | .error e => (.error e, [.importStep, .createStep])
      | .ok client =>
        match callGetSystem env.call client with
        | .error e => (.error e, [.importStep, .createStep, .callStep])
        | .ok systemPayload =>
          match extractMemoryStream systemPayload with
          | .error e =>
              (.error e, [.importStep, .createStep, .callStep, .extractStep])
          | .ok memoryStream =>
            match decodeMemoryStream memoryStream (env.codecs args.encoding) with
            | .error e =>
                (.error e,
                  [.importStep, .createStep, .callStep, .extractStep, .decodeStep])
            | .ok decoded => (.ok ([decoded], 0), pipelineOrder)

/-- `main(argv)`: outcome only. -/
def mainRun (env : Env) (argv : List String) : Except PyErr (List String × Nat) :=
  (mainTraced env argv).1

/-- Exit code of the process for `raise SystemExit(main())`: the returned
value on success, the `SystemExit` code on a raised exit, 1 on an uncaught
exception. -/
def procExitCode : Except PyErr (List String × Nat) → Nat
  | .ok (_, ret) => ret
  | .error (.sysExit c _) => c
  | .error (.uncaught _ _) => 1

/-- Diagnostic text the interpreter writes to stderr: the `SystemExit`
message, or the traceback of an uncaught exception. -/
def procStderrText : Except PyErr (List String × Nat) → String
  | .ok _ => ""
  | .error (.sysExit _ m) => m
  | .error (.uncaught n m) => "Traceback (most recent call last):\n" ++ n ++ ": " ++ m

/-- Lines printed to stdout. -/
def procStdoutLines : Except PyErr (List String × Nat) → List String
  | .ok (lines, _) => lines
  | .error _ => []

/-- The client exposes a callable `getSystem`/`get_system`, directly or on a
non-`None` nested `system`/`systems`/`console` attribute. -/
def exposesGetSystem (client : PyVal) : Bool :=
  (gsCandidates client).any fun o =>
    gsNames.any fun n => ((o.getattr? n).getD .none).isCallable

/-- The callable tag `tag` is bound to one of the guessed method names on
one of the candidate objects of `client`. -/
def IsGetSystemMethod (client : PyVal) (tag : Nat) : Prop :=
  ∃ o ∈ gsCandidates client, ∃ n ∈ gsNames, (o.getattr? n).getD .none = .callable tag

/-- The payload exposes a supported memory-stream attribute, or is a
dictionary with a supported memory-stream key. -/
def exposesMemoryField (p : PyVal) : Bool :=
  (memAttrNames.any fun n => (p.getattr? n).isSome) ||
    (match p with
     | .dict _ entries => memKeyNames.any fun k => (lookupStr entries k).isSome
     | _ => false)

/-- `v` is the value of a supported memory-stream attribute or key of
`p`. -/
def IsMemoryFieldValue (p v : PyVal) : Prop :=
  (∃ n ∈ memAttrNames, p.getattr? n = some v) ∨
    (∃ attrs entries, p = .dict attrs entries ∧
      ∃ k ∈ memKeyNames, lookupStr entries k = some v)

theorem firstCallableMethod_eq_some (o : PyVal) :
    ∀ names m, firstCallableMethod o names = some m →
      ∃ n ∈ names, (o.getattr? n).getD .none = m ∧ m.isCallable = true := by
  intro names
  induction names with
  | nil => intro m h; simp [firstCallableMethod] at h
  | cons n rest ih =>
    intro m h
    simp only [firstCallableMethod] at h
    split at h
    · rename_i hc
      cases h
      exact ⟨n, by simp, rfl, hc⟩
    · obtain ⟨n', hn', hv, hc⟩ := ih m h
      exact ⟨n', by simp [hn'], hv, hc⟩

theorem firstCallableMethod_eq_none (o : PyVal) :
    ∀ names, firstCallableMethod o names = Option.none →
      ∀ n ∈ names, ((o.getattr? n).getD .none).isCallable = false := by
  intro names
  induction names with
  | nil => intro _ n hn; simp at hn
  | cons n rest ih =>
    intro h n' hn'
    simp only [firstCallableMethod] at h
    split at h
    · cases h
    · rename_i hc
      rcases List.mem_cons.mp hn' with h' | h'
      · subst h'; simpa using hc
      · exact ih h n' h'

theorem findGetSystem_of_exposed :
    ∀ l : List PyVal,
      (∃ o ∈ l, ∃ n ∈ gsNames, ((o.getattr? n).getD .none).isCallable = true) →
      ∃ tag, (∃ o ∈ l, ∃ n ∈ gsNames, (o.getattr? n).getD .none = .callable tag) ∧
        findGetSystem l = some (.callable tag) := by
  intro l
  induction l with
  | nil => rintro ⟨o, ho, _⟩; simp at ho
  | cons o rest ih =>
    intro hexp
    cases hfc : firstCallableMethod o gsNames with
    | some m =>
      obtain ⟨n, hn, hv, hc⟩ := firstCallableMethod_eq_some o gsNames m hfc
      cases m with
      | callable tag =>
        exact ⟨tag, ⟨o, by simp, n, hn, hv⟩, by simp [findGetSystem, hfc]⟩
      | none => simp [PyVal.isCallable] at hc
      | bool b => simp [PyVal.isCallable] at hc
      | int k => simp [PyVal.isCallable] at hc
      | str s => simp [PyVal.isCallable] at hc
      | bytes bs => simp [PyVal.isCallable] at hc
      | bytearray bs => simp [PyVal.isCallable] at hc
      | pylist xs => simp [PyVal.isCallable] at hc
      | dict a e => simp [PyVal.isCallable] at hc
      | obj a => simp [PyVal.isCallable] at hc
    | none =>
      have hnone := firstCallableMethod_eq_none o gsNames hfc
      obtain ⟨o', ho', n', hn', hc'⟩ := hexp
      rcases List.mem_cons.mp ho' with h' | h'
      · subst h'
        rw [hnone n' hn'] at hc'
        cases hc'
      · obtain ⟨tag, ⟨o'', ho'', hm⟩, hfind⟩ := ih ⟨o', h', n', hn', hc'⟩
        exact ⟨tag, ⟨o'', by simp [ho''], hm⟩, by simp [findGetSystem, hfc, hfind]⟩

theorem firstPresentAttr_eq_some (p : PyVal) :
    ∀ names v, firstPresentAttr p names = some v →
      ∃ n ∈ names, p.getattr? n = some v := by
  intro names
  induction names with
  | nil => intro v h; simp [firstPresentAttr] at h
  | cons n rest ih =>
    intro v h
    simp only [firstPresentAttr] at h
    cases hg : p.getattr? n with
    | some w => rw [hg] at h; cases h; exact ⟨n, by simp, hg⟩
    | none =>
      rw [hg] at h
      obtain ⟨n', hn', hv⟩ := ih v h
      exact ⟨n', by simp [hn'], hv⟩

theorem firstPresentAttr_eq_none (p : PyVal) :
    ∀ names, firstPresentAttr p names = Option.none →
      ∀ n ∈ names, p.getattr? n = Option.none := by
  intro names
  induction names with
  | nil => intro _ n hn; simp at hn
  | cons n rest ih =>
    intro h n' hn'
    simp only [firstPresentAttr] at h
    cases hg : p.getattr? n with
    | some w => rw [hg] at h; cases h
    | none =>
      rw [hg] at h
      rcases List.mem_cons.mp hn' with h' | h'
      · subst h'; exact hg
      · exact ih h n' h'

theorem firstPresentKey_eq_some (entries : List (String × PyVal)) :
    ∀ names v, firstPresentKey entries names = some v →
      ∃ k ∈ names, lookupStr entries k = some v := by
  intro names
  induction names with
  | nil => intro v h; simp [firstPresentKey] at h
  | cons k rest ih =>
    intro v h
    simp only [firstPresentKey] at h
    cases hg : lookupStr entries k with
    | some w => rw [hg] at h; cases h; exact ⟨k, by simp, hg⟩
    | none =>
      rw [hg] at h
      obtain ⟨k', hk', hv⟩ := ih v h
      exact ⟨k', by simp [hk'], hv⟩

theorem getattr_some_not_none (p : PyVal) (n : String) (v : PyVal)
    (h : p.getattr? n = some v) : p.isNone = false := by
  cases p <;> simp_all [PyVal.getattr?, PyVal.isNone]

theorem rawBytesOf_error_uncaught (ms : PyVal) (enc : Encoding) (e : PyErr)
    (h : rawBytesOf ms enc = .error e) : ∃ n m, e = PyErr.uncaught n m := by
  cases ms <;> simp only [rawBytesOf] at h <;> (repeat' split at h) <;>
    cases h <;> exact ⟨_, _, rfl⟩

theorem decodeMemoryStream_error_uncaught (ms : PyVal) (enc : Encoding) (e : PyErr)
    (h : decodeMemoryStream ms enc = .error e) : ∃ n m, e = PyErr.uncaught n m := by
  simp only [decodeMemoryStream] at h
  split at h
  · rename_i e' heq
    cases h
    exact rawBytesOf_error_uncaught ms enc _ heq
  · split at h <;> cases h

/-- `v` falls into none of the specially-handled `bytes`/`bytearray`/`str`
branches of `_decode_memory_stream`, so it takes the JSON branch. -/
def PyVal.jsonBranch : PyVal → Bool
  | .bytes _ => false
  | .bytearray _ => false
  | .str _ => false
  | _ => true

theorem string_append_ne_left (a b : String) (ha : a ≠ "") : a ++ b ≠ "" := by
  intro h
  apply ha
  cases a with
  | mk da =>
    cases b with
    | mk db =>
      have hd : da ++ db = [] := congrArg String.data h
      have h1 := (List.append_eq_nil.mp hd).1
      simp [h1]

/-- A module that also serves as its own client, exposing a zero-argument
`getSystem` callable with tag 0. -/
def demoModule : PyVal := .obj [("getSystem", .callable 0)]

/-- A call table on which every call returns the fixed payload. -/
def constCall (payload : PyVal) : CallTable := fun _ _ _ => payload

/-- A concrete run environment: `demoModule`, calls returning `payload`,
every encoding name resolving to UTF-8. -/
def demoEnv (payload : PyVal) : Env :=
  ⟨some demoModule, constCall payload, fun _ => utf8Encoding⟩

/-- C1: for every memory-stream value and encoding, `_decode_memory_stream`
produces the expected string — bytes or bytearrays are decoded with the
given encoding; a string that validates as base64 yields the base64-decoded
bytes decoded with the given encoding; any other JSON-serializable value
yields its `json.dumps` serialization (with `ensure_ascii=False`) encoded
and then decoded with the given encoding. -/
theorem decode_memory_stream_expected (enc : Encoding) :
    (∀ bs s, enc.decode bs = some s →
        decodeMemoryStream (.bytes bs) enc = .ok s ∧
        decodeMemoryStream (.bytearray bs) enc = .ok s) ∧
    (∀ t bs s, b64decodeStrict t = some bs → enc.decode bs = some s →
        decodeMemoryStream (.str t) enc = .ok s) ∧
    (∀ v j bs s, v.jsonBranch = true → jsonDumps v = some j →
        enc.encode j = some bs → enc.decode bs = some s →
        decodeMemoryStream v enc = .ok s) := by
  refine ⟨?_, ?_, ?_⟩
  · intro bs s h
    constructor <;> simp [decodeMemoryStream, rawBytesOf, h]
  · intro t bs s hb hd
    simp [decodeMemoryStream, rawBytesOf, hb, hd]
  · intro v j bs s hv hj he hd
    cases v <;> simp_all [decodeMemoryStream, rawBytesOf, PyVal.jsonBranch]

theorem decode_memory_stream_expected_witness :
    decodeMemoryStream (.bytes [104, 105]) utf8Encoding = .ok "hi" ∧
    decodeMemoryStream (.str "aGk=") utf8Encoding = .ok "hi" ∧
    decodeMemoryStream (.int 7) utf8Encoding = .ok "7" :=
  ⟨((decode_memory_stream_expected utf8Encoding).1 [104, 105] "hi" (by rfl)).1,
    (decode_memory_stream_expected utf8Encoding).2.1 "aGk=" [104, 105] "hi"
      (by rfl) (by rfl),
    (decode_memory_stream_expected utf8Encoding).2.2 (.int 7) "7" [55] "7"
      (by rfl) (by rfl) (by rfl) (by rfl)⟩

/-- C2: whenever `_decode_memory_stream` cannot produce a string (it fails
with an uncaught exception), a run that reached the decoding stage
terminates with a non-zero exit code and a non-empty diagnostic on
stderr. -/
theorem decode_failure_exits_nonzero (env : Env) (argv : List String)
    (args : Args) (m client payload ms : PyVal) (e : PyErr)
    (hp : parseArgs argv = .ok args)
    (him : importClient env.galacticModule = .ok m)
    (hcr : createClient env.call m args.base_url args.api_key = .ok client)
    (hcs : callGetSystem env.call client = .ok payload)
    (hex : extractMemoryStream payload = .ok ms)
    (hde : decodeMemoryStream ms (env.codecs args.encoding) = .error e) :
    procExitCode (mainRun env argv) ≠ 0 ∧ procStderrText (mainRun env argv) ≠ "" := by
  obtain ⟨n, msg, rfl⟩ := decodeMemoryStream_error_uncaught _ _ _ hde
  have hmain : mainRun env argv = .error (.uncaught n msg) := by
    simp [mainRun, mainTraced, hp, him, hcr, hcs, hex, hde]
  rw [hmain]
  exact ⟨by simp [procExitCode],
    string_append_ne_left _ _ (string_append_ne_left _ _
      (string_append_ne_left _ _ (by decide)))⟩

theorem decode_failure_exits_nonzero_witness :
    procExitCode (mainRun (demoEnv (.obj [("memory_stream", .callable 5)])) []) ≠ 0 ∧
    procStderrText (mainRun (demoEnv (.obj [("memory_stream", .callable 5)])) []) ≠ "" :=
  decode_failure_exits_nonzero (demoEnv (.obj [("memory_stream", .callable 5)])) []
    ⟨Option.none, Option.none, "utf-8"⟩ demoModule demoModule
    (.obj [("memory_stream", .callable 5)]) (.callable 5)
    (.uncaught "TypeError" "Object is not JSON serializable")
    rfl rfl rfl rfl rfl rfl

/-- C3: whenever the raw bytes were obtained but decoding them with the
user-supplied codec fails, `_decode_memory_stream` recovers exactly once by
decoding the same bytes as UTF-8 with replacement characters, and returns
that string instead of failing. -/
theorem decode_memory_stream_fallback (ms : PyVal) (enc : Encoding) (raw : List Nat)
    (hraw : rawBytesOf ms enc = .ok raw)
    (hfail : enc.decode raw = Option.none) :
    decodeMemoryStream ms enc = .ok (utf8DecodeReplace raw) := by
  simp [decodeMemoryStream, hraw, hfail]

theorem decode_memory_stream_fallback_witness :
    decodeMemoryStream (.bytes [181, 235, 45]) utf8Encoding =
      .ok (utf8DecodeReplace [181, 235, 45]) ∧
    utf8DecodeReplace [181, 235, 45] = "��-" :=
  ⟨decode_memory_stream_fallback (.bytes [181, 235, 45]) utf8Encoding
      [181, 235, 45] (by rfl) (by rfl), by rfl⟩

/-- C9: a string memory-stream value that validates as strict base64 is
always interpreted as base64 rather than plain text, whatever the encoding;
in particular the ordinary 4-character alphanumeric string `"test"` is
decoded to a different string than itself. -/
theorem base64_takes_priority :
    (∀ s bs (enc : Encoding), b64decodeStrict s = some bs →
        rawBytesOf (.str s) enc = .ok bs) ∧
    (decodeMemoryStream (.str "test") utf8Encoding = .ok "��-" ∧
      ("��-" : String) ≠ "test") := by
  refine ⟨?_, by rfl, by decide⟩
  intro s bs enc h
  simp [rawBytesOf, h]

theorem base64_takes_priority_witness :
    rawBytesOf (.str "dGVzdA==") utf8Encoding = .ok (utf8Encode "test") :=
  base64_takes_priority.1 "dGVzdA==" (utf8Encode "test") utf8Encoding (by rfl)

theorem firstCallableMethod_eq_none_of (o : PyVal) :
    ∀ names, (∀ n ∈ names, ((o.getattr? n).getD .none).isCallable = false) →
      firstCallableMethod o names = Option.none := by
  intro names
  induction names with
  | nil => intro _; rfl
  | cons n rest ih =>
    intro h
    simp only [firstCallableMethod]
    rw [if_neg (by simp [h n (List.mem_cons_self n rest)])]
    exact ih (fun x hx => h x (List.mem_cons_of_mem n hx))

theorem findGetSystem_eq_none_of :
    ∀ l : List PyVal,
      (∀ o ∈ l, ∀ n ∈ gsNames, ((o.getattr? n).getD .none).isCallable = false) →
      findGetSystem l = Option.none := by
  intro l
  induction l with
  | nil => intro _; rfl
  | cons o rest ih =>
    intro h
    simp only [findGetSystem]
    rw [firstCallableMethod_eq_none_of o gsNames (h o (by simp))]
    exact ih (fun x hx => h x (by simp [hx]))

theorem not_exposed_parts (client : PyVal) (h : exposesGetSystem client = false) :
    ∀ o ∈ gsCandidates client, ∀ n ∈ gsNames,
      ((o.getattr? n).getD .none).isCallable = false := by
  intro o ho n hn
  simp only [exposesGetSystem, List.any_eq_false] at h
  have h1 := h o ho
  simp only [Bool.not_eq_true, List.any_eq_false] at h1
  simpa using h1 n hn

theorem firstPresentAttr_eq_none_of (p : PyVal) :
    ∀ names, (∀ n ∈ names, p.getattr? n = Option.none) →
      firstPresentAttr p names = Option.none := by
  intro names
  induction names with
  | nil => intro _; rfl
  | cons n rest ih =>
    intro h
    simp only [firstPresentAttr]
    rw [h n (List.mem_cons_self n rest)]
    exact ih (fun x hx => h x (List.mem_cons_of_mem n hx))

theorem firstPresentKey_eq_none_of (entries : List (String × PyVal)) :
    ∀ names, (∀ k ∈ names, lookupStr entries k = Option.none) →
      firstPresentKey entries names = Option.none := by
  intro names
  induction names with
  | nil => intro _; rfl
  | cons k rest ih =>
    intro h
    simp only [firstPresentKey]
    rw [h k (List.mem_cons_self k rest)]
    exact ih (fun x hx => h x (List.mem_cons_of_mem k hx))

theorem firstPresentKey_eq_none (entries : List (String × PyVal)) :
    ∀ names, firstPresentKey entries names = Option.none →
      ∀ k ∈ names, lookupStr entries k = Option.none := by
  intro names
  induction names with
  | nil => intro _ k hk; simp at hk
  | cons k rest ih =>
    intro h k' hk'
    simp only [firstPresentKey] at h
    cases hg : lookupStr entries k with
    | some w => rw [hg] at h; cases h
    | none =>
      rw [hg] at h
      rcases List.mem_cons.mp hk' with h' | h'
      · subst h'; exact hg
      · exact ih h k' h'

theorem extract_error_of_not_exposed (p : PyVal) (h : exposesMemoryField p = false) :
    ∃ msg, extractMemoryStream p = .error (.sysExit 1 msg) ∧ msg ≠ "" := by
  simp only [exposesMemoryField, Bool.or_eq_false_iff] at h
  obtain ⟨h1, h2⟩ := h
  have hattr : firstPresentAttr p memAttrNames = Option.none := by
    apply firstPresentAttr_eq_none_of
    intro n hn
    have := List.any_eq_false.mp h1 n hn
    simpa using this
  cases p with
  | none => exact ⟨"The getSystem call returned no data.", by rfl, by decide⟩
  | dict attrs entries =>
    simp only at h2
    have hkey : firstPresentKey entries memKeyNames = Option.none := by
      apply firstPresentKey_eq_none_of
      intro k hk
      have := List.any_eq_false.mp h2 k hk
      simpa using this
    refine ⟨"The system payload does not contain a memory stream.", ?_, by decide⟩
    simp [extractMemoryStream, PyVal.isNone, hattr, hkey]
  | bool b =>
    exact ⟨"The system payload does not contain a memory stream.",
      by simp [extractMemoryStream, PyVal.isNone, hattr], by decide⟩
  | int n =>
    exact ⟨"The system payload does not contain a memory stream.",
      by simp [extractMemoryStream, PyVal.isNone, hattr], by decide⟩
  | str s =>
    exact ⟨"The system payload does not contain a memory stream.",
      by simp [extractMemoryStream, PyVal.isNone, hattr], by decide⟩
  | bytes bs =>
    exact ⟨"The system payload does not contain a memory stream.",
      by simp [extractMemoryStream, PyVal.isNone, hattr], by decide⟩
  | bytearray bs =>
    exact ⟨"The system payload does not contain a memory stream.",
      by simp [extractMemoryStream, PyVal.isNone, hattr], by decide⟩
  | pylist xs =>
    exact ⟨"The system payload does not contain a memory stream.",
      by simp [extractMemoryStream, PyVal.isNone, hattr], by decide⟩
  | obj attrs =>
    exact ⟨"The system payload does not contain a memory stream.",
      by simp [extractMemoryStream, PyVal.isNone, hattr], by decide⟩
  | callable tag =>
    exact ⟨"The system payload does not contain a memory stream.",
      by simp [extractMemoryStream, PyVal.isNone, hattr], by decide⟩

/-- C4: each of the three failure cases — the `galactic_console_client`
dependency missing, no `getSystem`/`get_system` method locatable on the
client or its nested attributes, and a payload without any recognized
memory-stream attribute or key — terminates the run with a non-zero exit
code and a non-empty human-readable diagnostic. -/
theorem failure_cases_exit_nonzero :
    (∀ (env : Env) (argv : List String) (args : Args),
      parseArgs argv = .ok args → env.galacticModule = Option.none →
      procExitCode (mainRun env argv) ≠ 0 ∧
        procStderrText (mainRun env argv) ≠ "") ∧
    (∀ (env : Env) (argv : List String) (args : Args) (m client : PyVal),
      parseArgs argv = .ok args →
      importClient env.galacticModule = .ok m →
      createClient env.call m args.base_url args.api_key = .ok client →
      exposesGetSystem client = false →
      procExitCode (mainRun env argv) ≠ 0 ∧
        procStderrText (mainRun env argv) ≠ "") ∧
    (∀ (env : Env) (argv : List String) (args : Args) (m client payload : PyVal),
      parseArgs argv = .ok args →
      importClient env.galacticModule = .ok m →
      createClient env.call m args.base_url args.api_key = .ok client →
      callGetSystem env.call client = .ok payload →
      exposesMemoryField payload = false →
      procExitCode (mainRun env argv) ≠ 0 ∧
        procStderrText (mainRun env argv) ≠ "") := by
  refine ⟨?_, ?_, ?_⟩
  · intro env argv args hp hm
    have hmain : mainRun env argv =
        .error (.sysExit 1
          ("The 'galactic_console_client' package is required. " ++
            "Install it before running this script.")) := by
      simp [mainRun, mainTraced, hp, importClient, hm]
    rw [hmain]
    exact ⟨by simp [procExitCode], by simp [procStderrText]⟩
  · intro env argv args m client hp him hcr hexp
    have hcall : callGetSystem env.call client =
        .error (.sysExit 1 "Unable to locate a 'getSystem' call on the client.") := by
      unfold callGetSystem
      rw [findGetSystem_eq_none_of _ (not_exposed_parts client hexp)]
    have hmain : mainRun env argv =
        .error (.sysExit 1 "Unable to locate a 'getSystem' call on the client.") := by
      simp [mainRun, mainTraced, hp, him, hcr, hcall]
    rw [hmain]
    exact ⟨by simp [procExitCode], by simp [procStderrText]⟩
  · intro env argv args m client payload hp him hcr hcs hexp
    obtain ⟨msg, hext, hmsg⟩ := extract_error_of_not_exposed payload hexp
    have hmain : mainRun env argv = .error (.sysExit 1 msg) := by
      simp [mainRun, mainTraced, hp, him, hcr, hcs, hext]
    rw [hmain]
    exact ⟨by simp [procExitCode], by simpa [procStderrText] using hmsg⟩

theorem failure_cases_exit_nonzero_witness :
    (procExitCode (mainRun ⟨Option.none, constCall .none, fun _ => utf8Encoding⟩ []) ≠ 0 ∧
      procStderrText (mainRun ⟨Option.none, constCall .none, fun _ => utf8Encoding⟩ []) ≠ "") ∧
    (procExitCode (mainRun ⟨some (.obj []), constCall .none, fun _ => utf8Encoding⟩ []) ≠ 0 ∧
      procStderrText (mainRun ⟨some (.obj []), constCall .none, fun _ => utf8Encoding⟩ []) ≠ "") ∧
    (procExitCode (mainRun (demoEnv (.obj [])) []) ≠ 0 ∧
      procStderrText (mainRun (demoEnv (.obj [])) []) ≠ "") :=
  ⟨failure_cases_exit_nonzero.1 ⟨Option.none, constCall .none, fun _ => utf8Encoding⟩ []
      ⟨Option.none, Option.none, "utf-8"⟩ rfl rfl,
    failure_cases_exit_nonzero.2.1 ⟨some (.obj []), constCall .none, fun _ => utf8Encoding⟩ []
      ⟨Option.none, Option.none, "utf-8"⟩ (.obj []) (.obj []) rfl rfl rfl (by rfl),
    failure_cases_exit_nonzero.2.2 (demoEnv (.obj [])) []
      ⟨Option.none, Option.none, "utf-8"⟩ demoModule demoModule (.obj [])
      rfl rfl rfl rfl (by rfl)⟩

/-- C5: a client exposing a callable `getSystem`/`get_system` — directly or
on a non-`None` nested `system`/`systems`/`console` attribute — makes
`_call_get_system` return exactly the value of calling that located method;
a payload exposing a supported memory-stream attribute, or a dictionary with
a supported key, makes `_extract_memory_stream` return that field's
value. -/
theorem guessed_lookup_retrieves :
    (∀ (call : CallTable) (client : PyVal), exposesGetSystem client = true →
      ∃ tag, IsGetSystemMethod client tag ∧
        callGetSystem call client = .ok (call tag [] [])) ∧
    (∀ payload : PyVal, exposesMemoryField payload = true →
      ∃ v, IsMemoryFieldValue payload v ∧ extractMemoryStream payload = .ok v) := by
  constructor
  · intro call client hexp
    simp only [exposesGetSystem, List.any_eq_true] at hexp
    obtain ⟨o, ho, hn⟩ := hexp
    obtain ⟨n, hn', hc⟩ := hn
    obtain ⟨tag, hmeth, hfind⟩ :=
      findGetSystem_of_exposed (gsCandidates client) ⟨o, ho, n, hn', hc⟩
    refine ⟨tag, hmeth, ?_⟩
    unfold callGetSystem
    rw [hfind]
    rfl
  · intro payload hexp
    cases hfa : firstPresentAttr payload memAttrNames with
    | some v =>
      obtain ⟨n, hn, hv⟩ := firstPresentAttr_eq_some payload memAttrNames v hfa
      refine ⟨v, Or.inl ⟨n, hn, hv⟩, ?_⟩
      unfold extractMemoryStream
      rw [getattr_some_not_none payload n v hv]
      simp [hfa]
    | none =>
      have hnoattr : (memAttrNames.any fun n => (payload.getattr? n).isSome) = false := by
        rw [List.any_eq_false]
        intro n hn
        simp [firstPresentAttr_eq_none payload memAttrNames hfa n hn]
      cases payload with
      | dict attrs entries =>
        have hkeys : (memKeyNames.any fun k => (lookupStr entries k).isSome) = true := by
          have h' := hexp
          rw [exposesMemoryField, hnoattr, Bool.false_or] at h'
          exact h'
        cases hfk : firstPresentKey entries memKeyNames with
        | some v =>
          obtain ⟨k, hk, hv⟩ := firstPresentKey_eq_some entries memKeyNames v hfk
          refine ⟨v, Or.inr ⟨attrs, entries, rfl, k, hk, hv⟩, ?_⟩
          simp [extractMemoryStream, PyVal.isNone, hfa, hfk]
        | none =>
          exfalso
          obtain ⟨k, hk, hks⟩ := List.any_eq_true.mp hkeys
          rw [firstPresentKey_eq_none entries memKeyNames hfk k hk] at hks
          cases hks
      | none => simp [exposesMemoryField, PyVal.getattr?, memAttrNames] at hexp
      | bool b => simp [exposesMemoryField, PyVal.getattr?, memAttrNames] at hexp
      | int n => simp [exposesMemoryField, PyVal.getattr?, memAttrNames] at hexp
      | str s => simp [exposesMemoryField, PyVal.getattr?, memAttrNames] at hexp
      | bytes bs => simp [exposesMemoryField, PyVal.getattr?, memAttrNames] at hexp
      | bytearray bs => simp [exposesMemoryField, PyVal.getattr?, memAttrNames] at hexp
      | pylist xs => simp [exposesMemoryField, PyVal.getattr?, memAttrNames] at hexp
      | obj attrs =>
        exfalso
        simp [exposesMemoryField, PyVal.getattr?, memAttrNames] at hexp
        have h1 : ∀ n ∈ memAttrNames, lookupStr attrs n = Option.none :=
          fun n hn => firstPresentAttr_eq_none (PyVal.obj attrs) memAttrNames hfa n hn
        rcases hexp with h | h | h
        · rw [h1 "memory_stream" (by simp [memAttrNames])] at h; cases h
        · rw [h1 "memoryStream" (by simp [memAttrNames])] at h; cases h
        · rw [h1 "memory" (by simp [memAttrNames])] at h; cases h
      | callable tag => simp [exposesMemoryField, PyVal.getattr?, memAttrNames] at hexp

theorem guessed_lookup_retrieves_witness :
    (∃ tag, IsGetSystemMethod (.obj [("system", .obj [("get_system", .callable 3)])]) tag ∧
      callGetSystem (constCall (.int 1))
        (.obj [("system", .obj [("get_system", .callable 3)])]) =
        .ok (constCall (.int 1) tag [] [])) ∧
    (∃ v, IsMemoryFieldValue (.dict [] [("memoryStream", .str "x")]) v ∧
      extractMemoryStream (.dict [] [("memoryStream", .str "x")]) = .ok v) :=
  ⟨guessed_lookup_retrieves.1 (constCall (.int 1))
      (.obj [("system", .obj [("get_system", .callable 3)])]) (by rfl),
    guessed_lookup_retrieves.2 (.dict [] [("memoryStream", .str "x")]) (by rfl)⟩

/-- C6: when import, client creation, the getSystem call, extraction and
decoding all succeed, `main` prints the decoded string and returns exit
code 0. -/
theorem success_prints_and_returns_zero (env : Env) (argv : List String)
    (args : Args) (m client payload ms : PyVal) (text : String)
    (hp : parseArgs argv = .ok args)
    (him : importClient env.galacticModule = .ok m)
    (hcr : createClient env.call m args.base_url args.api_key = .ok client)
    (hcs : callGetSystem env.call client = .ok payload)
    (hex : extractMemoryStream payload = .ok ms)
    (hde : decodeMemoryStream ms (env.codecs args.encoding) = .ok text) :
    mainRun env argv = .ok ([text], 0) ∧
    procExitCode (mainRun env argv) = 0 ∧
    procStdoutLines (mainRun env argv) = [text] := by
  have hmain : mainRun env argv = .ok ([text], 0) := by
    simp [mainRun, mainTraced, hp, him, hcr, hcs, hex, hde]
  exact ⟨hmain, by rw [hmain]; rfl, by rw [hmain]; rfl⟩

theorem success_prints_and_returns_zero_witness :
    mainRun (demoEnv (.obj [("memory_stream", .str "aGk=")])) [] = .ok (["hi"], 0) ∧
    procExitCode (mainRun (demoEnv (.obj [("memory_stream", .str "aGk=")])) []) = 0 ∧
    procStdoutLines (mainRun (demoEnv (.obj [("memory_stream", .str "aGk=")])) []) = ["hi"] :=
  success_prints_and_returns_zero (demoEnv (.obj [("memory_stream", .str "aGk=")])) []
    ⟨Option.none, Option.none, "utf-8"⟩ demoModule demoModule
    (.obj [("memory_stream", .str "aGk=")]) (.str "aGk=") "hi"
    rfl rfl rfl rfl rfl rfl

/-- C7: `main` runs its stages in the fixed order import → create client →
call getSystem → extract → decode → print, each at most once: the trace of
entered stages is always a prefix of `pipelineOrder`, and on success it is
exactly `pipelineOrder`. -/
theorem pipeline_stage_order (env : Env) (argv : List String) :
    (∃ rest, (mainTraced env argv).2 ++ rest = pipelineOrder) ∧
    (∀ out, (mainTraced env argv).1 = .ok out →
      (mainTraced env argv).2 = pipelineOrder) := by
  cases hp : parseArgs argv with
  | error e =>
    have h : mainTraced env argv = (.error e, []) := by simp [mainTraced, hp]
    rw [h]
    exact ⟨⟨pipelineOrder, rfl⟩, fun out hout => by simp at hout⟩
  | ok args =>
    cases him : importClient env.galacticModule with
    | error e =>
      have h : mainTraced env argv = (.error e, [.importStep]) := by
        simp [mainTraced, hp, him]
      rw [h]
      exact ⟨⟨[.createStep, .callStep, .extractStep, .decodeStep, .printStep], rfl⟩,
        fun out hout => by simp at hout⟩
    | ok m =>
      cases hcr : createClient env.call m args.base_url args.api_key with
      | error e =>
        have h : mainTraced env argv = (.error e, [.importStep, .createStep]) := by
          simp [mainTraced, hp, him, hcr]
        rw [h]
        exact ⟨⟨[.callStep, .extractStep, .decodeStep, .printStep], rfl⟩,
          fun out hout => by simp at hout⟩
      | ok client =>
        cases hcs : callGetSystem env.call client with
        | error e =>
          have h : mainTraced env argv =
              (.error e, [.importStep, .createStep, .callStep]) := by
            simp [mainTraced, hp, him, hcr, hcs]
          rw [h]
          exact ⟨⟨[.extractStep, .decodeStep, .printStep], rfl⟩,
            fun out hout => by simp at hout⟩
        | ok payload =>
          cases hex : extractMemoryStream payload with
          | error e =>
            have h : mainTraced env argv =
                (.error e, [.importStep, .createStep, .callStep, .extractStep]) := by
              simp [mainTraced, hp, him, hcr, hcs, hex]
            rw [h]
            exact ⟨⟨[.decodeStep, .printStep], rfl⟩, fun out hout => by simp at hout⟩
          | ok ms =>
            cases hde : decodeMemoryStream ms (env.codecs args.encoding) with
            | error e =>
              have h : mainTraced env argv =
                  (.error e,
                    [.importStep, .createStep, .callStep, .extractStep, .decodeStep]) := by
                simp [mainTraced, hp, him, hcr, hcs, hex, hde]
              rw [h]
              exact ⟨⟨[.printStep], rfl⟩, fun out hout => by simp at hout⟩
            | ok text =>
              have h : mainTraced env argv = (.ok ([text], 0), pipelineOrder) := by
                simp [mainTraced, hp, him, hcr, hcs, hex, hde]
              rw [h]
              exact ⟨⟨[], by simp⟩, fun out hout => rfl⟩

theorem pipeline_stage_order_witness :
    (mainTraced (demoEnv (.obj [("memory_stream", .str "aGk=")])) []).2 = pipelineOrder :=
  (pipeline_stage_order (demoEnv (.obj [("memory_stream", .str "aGk=")])) []).2
    (["hi"], 0) (by rfl)

/-- C10: extraction precedence — attribute lookup is tried before
dictionary-key lookup, attribute names in the order memory_stream,
memoryStream, memory, dictionary keys in that order with memory_streams
last and for dictionaries only; client creation prefers
`GalacticConsoleClient` over the `Configuration`/`ApiClient` pattern and
falls back to the module itself when neither pattern matches. -/
theorem precedence_and_fallback :
    (∀ attrs entries v, lookupStr attrs "memory_stream" = some v →
      extractMemoryStream (.dict attrs entries) = .ok v) ∧
    (∀ attrs entries v, lookupStr attrs "memory_stream" = Option.none →
      lookupStr attrs "memoryStream" = some v →
      extractMemoryStream (.dict attrs entries) = .ok v) ∧
    (∀ attrs entries v, lookupStr attrs "memory_stream" = Option.none →
      lookupStr attrs "memoryStream" = Option.none →
      lookupStr attrs "memory" = some v →
      extractMemoryStream (.dict attrs entries) = .ok v) ∧
    (∀ entries v, lookupStr entries "memory_stream" = some v →
      extractMemoryStream (.dict [] entries) = .ok v) ∧
    (∀ entries v, lookupStr entries "memory_stream" = Option.none →
      lookupStr entries "memoryStream" = some v →
      extractMemoryStream (.dict [] entries) = .ok v) ∧
    (∀ entries v, lookupStr entries "memory_stream" = Option.none →
      lookupStr entries "memoryStream" = Option.none →
      lookupStr entries "memory" = Option.none →
      lookupStr entries "memory_streams" = some v →
      extractMemoryStream (.dict [] entries) = .ok v) ∧
    (∀ v : PyVal, extractMemoryStream (.obj [("memory_streams", v)]) =
      .error (.sysExit 1 "The system payload does not contain a memory stream.")) ∧
    (∀ (call : CallTable) (module : PyVal) (baseUrl apiKey : Option String) (g : PyVal),
      module.getattr? "GalacticConsoleClient" = some g →
      createClient call module baseUrl apiKey =
        callVal call g [] (clientKwargs baseUrl apiKey)) ∧
    (∀ (call : CallTable) (module : PyVal) (baseUrl apiKey : Option String),
      module.getattr? "GalacticConsoleClient" = Option.none →
      (module.getattr? "Configuration" = Option.none ∨
        module.getattr? "ApiClient" = Option.none) →
      createClient call module baseUrl apiKey = .ok module) := by
  refine ⟨?_, ?_, ?_, ?_, ?_, ?_, ?_, ?_, ?_⟩
  · intro attrs entries v h
    simp [extractMemoryStream, PyVal.isNone, firstPresentAttr, memAttrNames,
      PyVal.getattr?, h]
  · intro attrs entries v h1 h2
    simp [extractMemoryStream, PyVal.isNone, firstPresentAttr, memAttrNames,
      PyVal.getattr?, h1, h2]
  · intro attrs entries v h1 h2 h3
    simp [extractMemoryStream, PyVal.isNone, firstPresentAttr, memAttrNames,
      PyVal.getattr?, h1, h2, h3]
  · intro entries v h
    simp [extractMemoryStream, PyVal.isNone, firstPresentAttr, firstPresentKey,
      memAttrNames, memKeyNames, PyVal.getattr?, lookupStr, h]
  · intro entries v h1 h2
    simp [extractMemoryStream, PyVal.isNone, firstPresentAttr, firstPresentKey,
      memAttrNames, memKeyNames, PyVal.getattr?, lookupStr, h1, h2]
  · intro entries v h1 h2 h3 h4
    simp [extractMemoryStream, PyVal.isNone, firstPresentAttr, firstPresentKey,
      memAttrNames, memKeyNames, PyVal.getattr?, lookupStr, h1, h2, h3, h4]
  · intro v
    simp [extractMemoryStream, PyVal.isNone, firstPresentAttr, memAttrNames,
      PyVal.getattr?, lookupStr]
  · intro call module baseUrl apiKey g h
    simp [createClient, h]
  · intro call module baseUrl apiKey h1 hor
    rcases hor with h2 | h2 <;> simp [createClient, h1, h2]

theorem precedence_and_fallback_witness :
    extractMemoryStream (.dict [("memory", .int 1)] [("memory_stream", .int 2)]) =
      .ok (.int 1) ∧
    extractMemoryStream (.dict [] [("memoryStream", .int 3), ("memory_stream", .int 5)]) =
      .ok (.int 5) ∧
    createClient (constCall (.int 0))
      (.obj [("GalacticConsoleClient", .callable 7), ("Configuration", .callable 8),
        ("ApiClient", .callable 9)]) (some "u") Option.none =
      callVal (constCall (.int 0)) (.callable 7) []
        (clientKwargs (some "u") Option.none) ∧
    createClient (constCall (.int 0)) (.obj [("Configuration", .callable 8)])
      Option.none Option.none = .ok (.obj [("Configuration", .callable 8)]) :=
  ⟨precedence_and_fallback.2.2.1 [("memory", .int 1)] [("memory_stream", .int 2)]
      (.int 1) rfl rfl rfl,
    precedence_and_fallback.2.2.2.1 [("memoryStream", .int 3), ("memory_stream", .int 5)]
      (.int 5) rfl,
    precedence_and_fallback.2.2.2.2.2.2.2.1 (constCall (.int 0))
      (.obj [("GalacticConsoleClient", .callable 7), ("Configuration", .callable 8),
        ("ApiClient", .callable 9)]) (some "u") Option.none (.callable 7) rfl,
    precedence_and_fallback.2.2.2.2.2.2.2.2 (constCall (.int 0))
      (.obj [("Configuration", .callable 8)]) Option.none Option.none rfl (Or.inr rfl)⟩
